import Mathlib

/-!
Verification of the TDB sentence reassembler, sentence parsing, UTC minute
boundary timing and the response-driven send loop of the
vdes_performance_measurement_rpi repository.

Python strings are modelled as Lean `String` / `List Char`; `datetime`
values as `Int` microseconds since an epoch (all values are treated as
UTC, mirroring the code's normalisation of naive datetimes); bit strings
(Python strings of `'0'`/`'1'`) as `List Bool`; Python dicts (insertion
ordered, unique keys) as association lists where insertion overwrites in
place and otherwise appends.
-/

namespace Vdes

/-! ### Python string primitives -/

/-- Model of Python `str.strip` restricted to ASCII whitespace. -/
def pyStrip (l : List Char) : List Char :=
  ((l.dropWhile Char.isWhitespace).reverse.dropWhile Char.isWhitespace).reverse

/-- Model of Python `str.split(sep)` for a single-character separator. -/
def pySplit (l : List Char) (sep : Char) : List (List Char) :=
  match l with
  | [] => [[]]
  | c :: rest =>
    if c = sep then [] :: pySplit rest sep
    else
      match pySplit rest sep with
      | [] => [[c]]
      | g :: gs => (c :: g) :: gs

/-- Index of the first occurrence of `c` in `l`, as in Python `str.find`. -/
def findCharIdx (l : List Char) (c : Char) : Option Nat :=
  match l with
  | [] => none
  | x :: rest => if x = c then some 0 else (findCharIdx rest c).map (· + 1)

/-- Model of Python `str.splitlines` for the ASCII terminators
`"\r\n"`, `"\r"` and `"\n"` (a trailing terminator produces no extra
empty line, matching Python). -/
def pySplitLines : List Char → List Char → List (List Char)
  | [], cur => if cur.isEmpty then [] else [cur.reverse]
  | '\r' :: '\n' :: rest, cur => cur.reverse :: pySplitLines rest []
  | '\r' :: rest, cur => cur.reverse :: pySplitLines rest []
  | '\n' :: rest, cur => cur.reverse :: pySplitLines rest []
  | c :: rest, cur => pySplitLines rest (c :: cur)

/-- Digits of a decimal literal, as a value, Python `int` on a string of
digits. -/
def parseDigits (l : List Char) : Option Nat :=
  if l.isEmpty then none
  else if l.all Char.isDigit then
    some (l.foldl (fun a c => 10 * a + (c.toNat - 48)) 0)
  else none

/-- Model of Python `int(str)` on an already stripped string: an optional
sign followed by decimal digits (underscore digit grouping is not
modelled; the sentences handled here never use it). -/
def pyParseIntCore (l : List Char) : Option Int :=
  match l with
  | '-' :: ds => (parseDigits ds).map (fun n => -(n : Int))
  | '+' :: ds => (parseDigits ds).map (fun n => (n : Int))
  | ds => (parseDigits ds).map (fun n => (n : Int))

/-- Embedding of `TdbSentenceReassembler._parse_int`: strip the field,
fail on an empty string, otherwise convert with Python `int`. -/
def pyParseInt (l : List Char) : Option Int :=
  let t := pyStrip l
  if t.isEmpty then none else pyParseIntCore t

/-! ### Constants

`consts/tdb_constants.py` is not among the provided sources; its values
are modelled from the spec (sections 4.2, 4.3, 4.4 and 6): a 5-character
sentence token ending in `TDB`, field positions
`!<type>,<total>,<index>,<seq>,<src>,<dst>,<unused>,<unused>,<payload>,<fill>`,
fill range 0-5, a 30-second group expiry, 6-bit chunks with values 0-63
split at 40, and the two character ranges 48-87 (offset 48) and 96-119
(offset 56). -/

/-- Modelled from the spec: `TDB_TOKEN_LENGTH` (the `<5-char-type>` token). -/
def TDB_TOKEN_LENGTH : Nat := 5

/-- Modelled from the spec: `TDB_TOKEN_SUFFIX` (the fixed 3-letter fragment suffix). -/
def TDB_TOKEN_SUFFIX : List Char := ['T', 'D', 'B']

/-- Modelled from the spec: `TDB_MIN_FIELD_COUNT` (the 10 comma-separated fields of a fragment sentence). -/
def TDB_MIN_FIELD_COUNT : Nat := 10

/-- Modelled from the spec: `TDB_GROUP_IDENTITY_MIN_FIELD_COUNT` (fields up to the destination at position 5). -/
def TDB_GROUP_IDENTITY_MIN_FIELD_COUNT : Nat := 6

/-- Modelled from the spec: `TDB_GROUP_EXPIRY_SECONDS` (30), in microseconds here. -/
def TDB_GROUP_EXPIRY_US : Int := 30000000

/-- Modelled from the spec: `TDB_FILL_MIN_VALUE`. -/
def TDB_FILL_MIN_VALUE : Int := 0

/-- Modelled from the spec: `TDB_FILL_MAX_VALUE`. -/
def TDB_FILL_MAX_VALUE : Int := 5

/-! ### 6-bit AIS codec
Embeds `_ais_char_to_sixbit`, `_sixbit_to_ais_char`, `_payload_to_bits`
and `_bits_to_payload` of `reporting/tdb_sentence_reassembler.py`. -/

/-- Embedding of `TdbSentenceReassembler._ais_char_to_sixbit`: `None`
models the `ValueError` raised on a character outside both ranges. -/
def aisCharToSixbit (c : Char) : Option Nat :=
  let code := c.toNat
  if 48 ≤ code ∧ code ≤ 87 then some (code - 48)
  else if 96 ≤ code ∧ code ≤ 119 then some (code - 56)
  else none

/-- Embedding of `TdbSentenceReassembler._sixbit_to_ais_char` (the
`value < 0` half of the source's range check is vacuous on `Nat`). -/
def sixbitToAisChar (v : Nat) : Option Char :=
  if v > 63 then none
  else if v < 40 then some (Char.ofNat (v + 48))
  else some (Char.ofNat (v + 56))

/-- Bits of `f"{v:06b}"`, most significant first, for the 6-bit values
produced by `aisCharToSixbit` (always below 64). -/
def natToBits6 (v : Nat) : List Bool :=
  [v.testBit 5, v.testBit 4, v.testBit 3, v.testBit 2, v.testBit 1, v.testBit 0]

/-- Value of a bit string, as computed by Python `int(chunk, 2)`. -/
def bitsToNat (l : List Bool) : Nat :=
  l.foldl (fun a b => 2 * a + (if b then 1 else 0)) 0

/-- Failure reasons of `_payload_to_bits` (the two `ValueError` branches). -/
inductive PayloadBitsError where
  | badChar (c : Char)
  | fillTooLarge
deriving DecidableEq

/-- One character of `_payload_to_bits`: its 6-bit chunk, or the
undecodable-character error. -/
def encodeChar (c : Char) : Except PayloadBitsError (List Bool) :=
  match aisCharToSixbit c with
  | some v => .ok (natToBits6 v)
  | none => .error (.badChar c)

/-- The character loop of `_payload_to_bits`: the 6-bit chunk of every
character, stopping at the first undecodable character. -/
def encodePayloadChars : List Char → Except PayloadBitsError (List (List Bool))
  | [] => .ok []
  | c :: rest =>
    match encodeChar c with
    | .error e => .error e
    | .ok b =>
      match encodePayloadChars rest with
      | .error e => .error e
      | .ok bs => .ok (b :: bs)

/-- Embedding of `TdbSentenceReassembler._payload_to_bits`: encode every
character to 6 bits, then for a non-zero fill drop the trailing `fill`
bits, failing when `fill` exceeds the bit length. -/
def payloadToBits (payload : String) (fill : Int) : Except PayloadBitsError (List Bool) :=
  match encodePayloadChars payload.data with
  | .error e => .error e
  | .ok chunks =>
    let bits := chunks.flatten
    if fill = 0 then .ok bits
    else if fill > (bits.length : Int) then .error .fillTooLarge
    else .ok (bits.take (bits.length - fill.toNat))

/-- Successive 6-bit chunks of a bit string (`bits[offset : offset + 6]`
for `offset` in steps of 6): each step takes the next 6 bits, or the
whole remainder when fewer are left. -/
def chunks6 : List Bool → List (List Bool)
  | [] => []
  | b1 :: b2 :: b3 :: b4 :: b5 :: b6 :: rest => [b1, b2, b3, b4, b5, b6] :: chunks6 rest
  | l => [l]

/-- The chunk loop of `_bits_to_payload`: decode every 6-bit chunk,
stopping at the first out-of-range value. -/
def decodeChunks : List (List Bool) → Option (List Char)
  | [] => some []
  | ch :: rest =>
    match sixbitToAisChar (bitsToNat ch) with
    | none => none
    | some c =>
      match decodeChunks rest with
      | none => none
      | some cs => some (c :: cs)

/-- Embedding of `TdbSentenceReassembler._bits_to_payload`: `none` models
the `ValueError` on a length that is not a multiple of 6 (the 6-bit range
error inside is unreachable for 6-bit chunks but kept faithfully). -/
def bitsToPayload (bits : List Bool) : Option String :=
  if bits.length % 6 ≠ 0 then none
  else
    match decodeChunks (chunks6 bits) with
    | none => none
    | some chars => some (String.mk chars)

/-- Embedding of `TdbSentenceReassembler._calculate_checksum`: XOR of the
character codes, rendered as (at least) two uppercase hexadecimal digits
as by `f"{checksum:02X}"`. -/
def hexDigitUpper (n : Nat) : Char :=
  if n < 10 then Char.ofNat (48 + n) else Char.ofNat (55 + n)

/-- Hexadecimal digit extraction, with an explicit fuel argument so the
definition reduces structurally; the fuel never runs out when it is at
least the value (`n / 16 < n` for `n ≥ 16`). -/
def hexDigitsAux : Nat → Nat → List Char
  | 0, n => [hexDigitUpper (n % 16)]
  | fuel + 1, n =>
    if n < 16 then [hexDigitUpper n]
    else hexDigitsAux fuel (n / 16) ++ [hexDigitUpper (n % 16)]

/-- Hexadecimal digits of `n`, uppercase, no leading zeros. -/
def hexDigits (n : Nat) : List Char := hexDigitsAux n n

/-- NMEA checksum of a sentence body, as `_calculate_checksum` formats it. -/
def calculateChecksum (body : List Char) : List Char :=
  let c := body.foldl (fun a ch => Nat.xor a ch.toNat) 0
  if c < 16 then '0' :: hexDigits c else hexDigits c

/-! ### Reassembler data model
Embeds `_TdbSegment`, `_TdbSegmentGroup` and the mutable state of
`TdbSentenceReassembler`. Timestamps are `Int` microseconds. -/

/-- Embedding of `_TdbSegment`. -/
structure Segment where
  total : Int
  index : Int
  src : String
  dst : String
  payload : String
  fill : Int
deriving DecidableEq

/-- Embedding of `_TdbSegmentGroup`; `segments` is the insertion-ordered
`index -> bit string` dict. -/
structure Group where
  total : Int
  src : String
  dst : String
  segments : List (Int × List Bool) := []
  last : Option Int := none
deriving DecidableEq

/-- The `(total, src, dst)` dict key of `TdbSentenceReassembler._groups`. -/
abbrev GroupKey := Int × String × String

/-- Embedding of the `TdbSentenceReassembler` instance state. -/
structure Reassembler where
  groups : List (GroupKey × Group) := []
  successCount : Nat := 0
  failureCount : Nat := 0
deriving DecidableEq

/-- A fresh `TdbSentenceReassembler()`. -/
def Reassembler.empty : Reassembler := {}

/-- Embedding of `get_split_reconstruct_counts`. -/
def getSplitReconstructCounts (st : Reassembler) : Nat × Nat :=
  (st.successCount, st.failureCount)

/-- Dict lookup `self._groups.get(group_key)`. -/
def lookupGroup (k : GroupKey) (st : Reassembler) : Option Group :=
  (st.groups.find? (fun p => p.1 == k)).map Prod.snd

/-- Dict assignment `self._groups[group_key] = group`: overwrite in place
when the key is present, otherwise append. -/
def insertGroup (k : GroupKey) (g : Group) (groups : List (GroupKey × Group)) :
    List (GroupKey × Group) :=
  if groups.any (fun p => p.1 == k) then
    groups.map (fun p => if p.1 == k then (k, g) else p)
  else groups ++ [(k, g)]

/-- Dict lookup `group.segments.get(index)` (also `index in group.segments`). -/
def lookupSegmentBits (g : Group) (i : Int) : Option (List Bool) :=
  (g.segments.find? (fun p => p.1 == i)).map Prod.snd

/-- Dict assignment `group.segments[segment.index] = segment_bits`. -/
def insertSegmentBits (i : Int) (bits : List Bool) (segs : List (Int × List Bool)) :
    List (Int × List Bool) :=
  if segs.any (fun p => p.1 == i) then
    segs.map (fun p => if p.1 == i then (i, bits) else p)
  else segs ++ [(i, bits)]

/-- Embedding of `_mark_group_success`: the group is popped; the
success-counter increment in the source is commented out
(`# self._split_reconstruct_success_count += 1`), so the counter is left
unchanged here as well. -/
def markGroupSuccess (k : GroupKey) (st : Reassembler) : Reassembler :=
  { st with groups := st.groups.filter (fun p => !(p.1 == k)) }

/-- Embedding of `_mark_group_failure` (and of
`_mark_group_failure_with_log`, whose extra work is only logging): the
group is popped; the failure-counter increment in the source is commented
out (`# self._split_reconstruct_failure_count += 1`), so the counter is
left unchanged here as well. -/
def markGroupFailure (k : GroupKey) (st : Reassembler) : Reassembler :=
  { st with groups := st.groups.filter (fun p => !(p.1 == k)) }

/-- Embedding of `finalize_pending_groups_as_boundary_failure`: close
every remaining group as a failure and return how many keys were listed. -/
def finalizePendingGroupsAsBoundaryFailure (st : Reassembler) : Nat × Reassembler :=
  let pendingKeys := st.groups.map Prod.fst
  (pendingKeys.length, pendingKeys.foldl (fun s k => markGroupFailure k s) st)

/-- Expiry condition of one group inside `_expire_groups`: groups without
a reception time are skipped, a receive time earlier than the group's
last reception (clock anomaly) skips the judgment, and otherwise the
group expires when strictly more than 30 seconds have elapsed. -/
def shouldExpire (t : Int) (g : Group) : Bool :=
  match g.last with
  | none => false
  | some l => if t < l then false else decide (t - l > TDB_GROUP_EXPIRY_US)

/-- Embedding of `_expire_groups`: collect the expired keys, then close
each as a failure. -/
def expireGroups (t : Int) (st : Reassembler) : Reassembler :=
  let expiredKeys := (st.groups.filter (fun p => shouldExpire t p.2)).map Prod.fst
  expiredKeys.foldl (fun s k => markGroupFailure k s) st

/-! ### Sentence recognition and parsing -/

/-- The fields of the checksum-stripped body: content before the first
`*`, split on `,` (`sentence.split("*", 1)[0].split(",")`). -/
def bodyFields (s : String) : List (List Char) :=
  pySplit (s.data.takeWhile (fun c => c ≠ '*')) ','

/-- Field at a position, total on out-of-range positions (any use is
guarded by a field-count check, as in the source). -/
def fieldAt (fields : List (List Char)) (i : Nat) : List Char :=
  fields.getD i []

/-- Embedding of `TdbSentenceReassembler._is_tdb_sentence`: starts with
`!`, first comma strictly after position 1, 5-character token ending in
`TDB`. -/
def isTdbSentence (s : String) : Bool :=
  match s.data with
  | [] => false
  | c :: rest =>
    if c ≠ '!' then false
    else
      match findCharIdx (c :: rest) ',' with
      | none => false
      | some ci =>
        if ci ≤ 1 then false
        else
          let token := ((c :: rest).drop 1).take (ci - 1)
          token.length = TDB_TOKEN_LENGTH && TDB_TOKEN_SUFFIX.isSuffixOf token

/-- Embedding of `TdbSentenceReassembler._parse_tdb_sentence`: `none`
models every raised `ValueError`. -/
def parseTdbSentence (s : String) : Option Segment :=
  let fields := bodyFields s
  if fields.length < TDB_MIN_FIELD_COUNT then none
  else
    match pyParseInt (fieldAt fields 1), pyParseInt (fieldAt fields 2),
        pyParseInt (fieldAt fields 3), pyParseInt (fieldAt fields 9) with
    | some total, some index, some _seq, some fill =>
      let src := String.mk (pyStrip (fieldAt fields 4))
      let dst := String.mk (pyStrip (fieldAt fields 5))
      let payload := String.mk (pyStrip (fieldAt fields 8))
      if total < 1 then none
      else if index < 1 ∨ index > total then none
      else if fill < TDB_FILL_MIN_VALUE ∨ fill > TDB_FILL_MAX_VALUE then none
      else if payload = "" then none
      else some ⟨total, index, src, dst, payload, fill⟩
    | _, _, _, _ => none

/-- Embedding of `TdbSentenceReassembler._try_extract_group_identity`. -/
def tryExtractGroupIdentity (s : String) : Option (Int × Option Int × String × String) :=
  if s.data.isEmpty then none
  else
    let fields := bodyFields s
    if fields.length < TDB_GROUP_IDENTITY_MIN_FIELD_COUNT then none
    else
      match pyParseInt (fieldAt fields 1) with
      | none => none
      | some total =>
        let index := if fields.length > 2 then pyParseInt (fieldAt fields 2) else none
        let src := String.mk (pyStrip (fieldAt fields 4))
        let dst := String.mk (pyStrip (fieldAt fields 5))
        if src = "" ∨ dst = "" then none
        else if total < 1 then none
        else some (total, index, src, dst)

/-! ### Reassembly -/

/-- Embedding of `TdbSentenceReassembler._build_reassembled_sentence`:
`none` models both the explicit `return None` branches (missing index,
empty combination) and a `_bits_to_payload` exception, which the caller
treats the same way (group closed as failure). -/
def buildReassembledSentence (g : Group) : Option String :=
  match (List.range g.total.toNat).mapM (fun n => lookupSegmentBits g ((n : Int) + 1)) with
  | none => none
  | some bitSequences =>
    let combinedBits := bitSequences.flatten
    if combinedBits.isEmpty then none
    else
      let fill := (6 - combinedBits.length % 6) % 6
      let paddedBits := combinedBits ++ List.replicate fill false
      match bitsToPayload paddedBits with
      | none => none
      | some payload =>
        let body := "VATDB,1,1,0,".data ++ g.src.data ++ [','] ++ g.dst.data
          ++ ",0,0,".data ++ payload.data ++ [','] ++ (toString fill).data
        some (String.mk ('!' :: body ++ '*' :: calculateChecksum body))

/-- Embedding of `TdbSentenceReassembler._register_segment`; returns the
reassembled sentence (when the group completed) and the updated state. -/
def registerSegment (seg : Segment) (t : Int) (st : Reassembler) :
    Option String × Reassembler :=
  let groupKey : GroupKey := (seg.total, seg.src, seg.dst)
  let st :=
    if seg.index = 1 ∧ (lookupGroup groupKey st).isSome then markGroupFailure groupKey st
    else st
  let group := (lookupGroup groupKey st).getD
    { total := seg.total, src := seg.src, dst := seg.dst }
  if (lookupSegmentBits group seg.index).isSome then (none, markGroupFailure groupKey st)
  else
    match payloadToBits seg.payload seg.fill with
    | .error _ => (none, markGroupFailure groupKey st)
    | .ok segmentBits =>
      let group := { group with
        segments := insertSegmentBits seg.index segmentBits group.segments
        last := some t }
      let st := { st with groups := insertGroup groupKey group st.groups }
      if (group.segments.length : Int) < group.total then (none, st)
      else
        match buildReassembledSentence group with
        | none => (none, markGroupFailure groupKey st)
        | some sentence => (some sentence, markGroupSuccess groupKey st)

/-- The per-sentence body of the `reassemble_sentences` loop (every input
is a string here, so the non-string branch of the source is vacuous). -/
def processOneSentence (t : Int) (acc : List String × Reassembler) (sentence : String) :
    List String × Reassembler :=
  let (results, st) := acc
  let normalized := String.mk (pyStrip sentence.data)
  if normalized.data.isEmpty then (results, st)
  else if !isTdbSentence normalized then (results ++ [normalized], st)
  else
    match parseTdbSentence normalized with
    | none =>
      match tryExtractGroupIdentity normalized with
      | none => (results, st)
      | some (total, index, src, dst) =>
        let groupKey : GroupKey := (total, src, dst)
        let shouldMarkFailure :=
          total ≥ 2 ∧ (index = some 1 ∨ (lookupGroup groupKey st).isSome)
        if shouldMarkFailure then (results, markGroupFailure groupKey st)
        else (results, st)
    | some seg =>
      if seg.total < 2 then (results ++ [normalized], st)
      else
        match registerSegment seg t st with
        | (none, st) => (results, st)
        | (some reassembled, st) => (results ++ [reassembled], st)

/-- The loop of `reassemble_sentences`, after the expiry pass. -/
def processSentences (sentences : List String) (t : Int) (st : Reassembler) :
    List String × Reassembler :=
  sentences.foldl (processOneSentence t) ([], st)

/-- Embedding of `reassemble_sentences` (the `None`/non-list argument
guards are inexpressible on typed inputs): expire groups against the
batch receive time, then process each sentence in order. -/
def reassembleSentences (sentences : List String) (t : Int) (st : Reassembler) :
    List String × Reassembler :=
  processSentences sentences t (expireGroups t st)

/-! ### Receiver-side sentence extraction
Embeds `_is_tdb_sentence_token` and `_extract_target_tdb_sentences` of
`udp/receive/udp_receiver.py`. -/

/-- Embedding of `_is_tdb_sentence_token`: the stripped token has the
fixed length and ends in the fixed suffix. -/
def isTdbSentenceToken (token : List Char) : Bool :=
  let normalized := pyStrip token
  normalized.length = TDB_TOKEN_LENGTH && TDB_TOKEN_SUFFIX.isSuffixOf normalized

/-- Embedding of the inner `while` of `_extract_target_tdb_sentences` on
one line, phrased as a scan: advance to the next `!`; stop when no comma
follows; on a matching token append the stripped suffix from the marker
(when non-empty) and stop; otherwise continue searching from the next
position. -/
def extractLineSentences : List Char → List (List Char)
  | [] => []
  | c :: rest =>
    if c = '!' then
      match findCharIdx rest ',' with
      | none => []
      | some j =>
        if isTdbSentenceToken (rest.take j) then
          let tdbSentence := pyStrip (c :: rest)
          if tdbSentence.isEmpty then [] else [tdbSentence]
        else extractLineSentences rest
    else extractLineSentences rest

/-- Embedding of `_extract_target_tdb_sentences`: scan every line of the
received text. -/
def extractTargetTdbSentences (receivedText : String) : List String :=
  ((pySplitLines receivedText.data []).flatMap extractLineSentences).map String.mk

/-! ### UTC minute-boundary timing
Embeds `resolve_measurement_start_boundary_utc` and
`calculate_wait_seconds_until_boundary` of
`send_src/src/utils/measurement_timing.py`, and the receiver's
`_resolve_next_minute_boundary_utc`. Timestamps are `Int` microseconds
since an epoch minute boundary; the timezone normalisation of the source
(a naive value is treated as UTC) is the identity in this model. -/

/-- The `second` component of a timestamp. -/
def dtSecond (t : Int) : Int := (t / 1000000) % 60

/-- The `microsecond` component of a timestamp. -/
def dtMicrosecond (t : Int) : Int := t % 1000000

/-- The timestamp with `second=0, microsecond=0`
(`normalized.replace(second=0, microsecond=0)`). -/
def dtMinuteFloor (t : Int) : Int := t - t % 60000000

/-- Embedding of `resolve_measurement_start_boundary_utc`. -/
def resolveMeasurementStartBoundaryUtc (t : Int) : Int :=
  if dtSecond t = 0 ∧ dtMicrosecond t = 0 then t
  else dtMinuteFloor t + 60000000

/-- Embedding of `calculate_wait_seconds_until_boundary`, in microseconds
(the source returns `total_seconds()`, the same quantity scaled). -/
def calculateWaitUntilBoundary (target now : Int) : Int :=
  let wait := target - now
  if wait < 0 then 0 else wait

/-- Embedding of the receiver's `_resolve_next_minute_boundary_utc`,
which always advances to the following minute boundary (used for the
measurement window end, strictly after the start). -/
def resolveNextMinuteBoundaryUtc (t : Int) : Int :=
  dtMinuteFloor t + 60000000

/-! ### Response-driven send loop
Embeds the acknowledgement handling of
`send_src/src/udp/send/udp_sender.py`. The flags successfully dequeued
from the response queue before a stop request are modelled as a list;
an exhausted list models the stop request observed while waiting. -/

/-- Embedding of `_wait_for_next_send_trigger`: skip every flag equal to
0 and keep waiting; the first other flag ends the wait and is returned
together with the flags still queued; `none` models the stop request. -/
def waitForNextSendTrigger : List Int → Option (Int × List Int)
  | [] => none
  | f :: rest => if f = 0 then waitForNextSendTrigger rest else some (f, rest)

/-- One cycle of the `run_periodic_udp_send` loop after a send, as far as
the acknowledgement flag and the completed-send counter are concerned:
`none` models loop exit on stop; otherwise the counter is incremented
exactly when the flag equals 1, and the loop proceeds either way. -/
def sendCycle (sentCount : Nat) (flags : List Int) : Option (Nat × List Int) :=
  match waitForNextSendTrigger flags with
  | none => none
  | some (f, rest) => some ((if f = 1 then sentCount + 1 else sentCount), rest)

/-! ### Claim-side definitions -/

/-- Claim side of C6: position `i` of a line is a sentence-start marker
`!` whose token up to the next `,` has the fixed length and the fixed
`TDB` suffix. -/
def isMatchAt (l : List Char) (i : Nat) : Bool :=
  match l.get? i with
  | none => false
  | some c =>
    c == '!' &&
      match findCharIdx (l.drop (i + 1)) ',' with
      | none => false
      | some j => isTdbSentenceToken ((l.drop (i + 1)).take j)

/-- Least marker position of a line whose token matches, if any. -/
def firstMatchIdx (l : List Char) : Option Nat :=
  (List.range l.length).find? (isMatchAt l)

/-- Number of matching marker occurrences in a line. -/
def matchingMarkerCount (l : List Char) : Nat :=
  ((List.range l.length).filter (isMatchAt l)).length

/-- Claim side of C8: the enumerated parse-failure conditions — too few
fields in the checksum-stripped body, a non-integer total/index/seq/fill,
`total < 1`, `index` outside `[1, total]`, `fill` outside `[0, 5]`, or an
empty payload field. -/
def tdbParseFailsSpec (s : String) : Prop :=
  let fields := bodyFields s
  fields.length < TDB_MIN_FIELD_COUNT ∨
  pyParseInt (fieldAt fields 1) = none ∨
  pyParseInt (fieldAt fields 2) = none ∨
  pyParseInt (fieldAt fields 3) = none ∨
  pyParseInt (fieldAt fields 9) = none ∨
  (∃ total, pyParseInt (fieldAt fields 1) = some total ∧ total < 1) ∨
  (∃ total index, pyParseInt (fieldAt fields 1) = some total ∧
    pyParseInt (fieldAt fields 2) = some index ∧ (index < 1 ∨ index > total)) ∨
  (∃ fill, pyParseInt (fieldAt fields 9) = some fill ∧
    (fill < TDB_FILL_MIN_VALUE ∨ fill > TDB_FILL_MAX_VALUE)) ∨
  pyStrip (fieldAt fields 8) = []

/-- Claim side of C8: the produced segment carries exactly the parsed
field values (integer total/index/fill, stripped src/dst/payload). -/
def segMatchesParsedFields (s : String) (seg : Segment) : Prop :=
  let fields := bodyFields s
  pyParseInt (fieldAt fields 1) = some seg.total ∧
  pyParseInt (fieldAt fields 2) = some seg.index ∧
  seg.src = String.mk (pyStrip (fieldAt fields 4)) ∧
  seg.dst = String.mk (pyStrip (fieldAt fields 5)) ∧
  seg.payload = String.mk (pyStrip (fieldAt fields 8)) ∧
  pyParseInt (fieldAt fields 9) = some seg.fill

/-! ### Theorems -/

/-- C1: for a fresh reassembler, processing
`!VATDB,2,1,1,200000001,200000002,0,0,11,0*00` and, one second later,
`!VATDB,2,2,1,200000001,200000002,0,0,22,0*00` yields no output on the
first call and exactly the reconstructed sentence
`!VATDB,1,1,0,200000001,200000002,0,0,1122,0*6A` (total=1, index=1,
recomputed payload, fill and checksum) on the second; however
`get_split_reconstruct_counts` then returns `(0, 0)`, not success count
1, because the counter increments in `_mark_group_success` /
`_mark_group_failure` are commented out. -/
theorem reassembly_scenario_reconstructs_but_counters_stay_zero :
    (reassembleSentences ["!VATDB,2,1,1,200000001,200000002,0,0,11,0*00"] 0
        Reassembler.empty).1 = [] ∧
    (reassembleSentences ["!VATDB,2,2,1,200000001,200000002,0,0,22,0*00"] 1000000
        (reassembleSentences ["!VATDB,2,1,1,200000001,200000002,0,0,11,0*00"] 0
          Reassembler.empty).2).1
      = ["!VATDB,1,1,0,200000001,200000002,0,0,1122,0*6A"] ∧
    getSplitReconstructCounts
        (reassembleSentences ["!VATDB,2,2,1,200000001,200000002,0,0,22,0*00"] 1000000
          (reassembleSentences ["!VATDB,2,1,1,200000001,200000002,0,0,11,0*00"] 0
            Reassembler.empty).2).2
      = (0, 0) := by
  decide

/-- C2: opening a split group with `total = 2` and then finalizing at the
minute boundary closes that group (the call reports one pending group and
the group map becomes empty), yet `get_split_reconstruct_counts` still
returns `(0, 0)`: the closed group is not accounted in the failure
counter, because the increments in `_mark_group_failure` are commented
out. -/
theorem boundary_finalization_closes_group_but_counters_stay_zero :
    (finalizePendingGroupsAsBoundaryFailure
        (reassembleSentences ["!VATDB,2,1,1,A,B,0,0,11,0"] 0 Reassembler.empty).2).1 = 1 ∧
    (finalizePendingGroupsAsBoundaryFailure
        (reassembleSentences ["!VATDB,2,1,1,A,B,0,0,11,0"] 0 Reassembler.empty).2).2.groups
      = [] ∧
    getSplitReconstructCounts
        (finalizePendingGroupsAsBoundaryFailure
          (reassembleSentences ["!VATDB,2,1,1,A,B,0,0,11,0"] 0 Reassembler.empty).2).2
      = (0, 0) := by
  decide

/-- C4: feeding the same valid fragment (`total = 2`, `index = 2`) twice
to a fresh reassembler produces no reconstructed output and removes the
group from the open-group map, but `get_split_reconstruct_counts` returns
`(0, 0)` rather than failure count 1, because the counter increment in
`_mark_group_failure` is commented out. -/
theorem duplicate_fragment_closes_group_but_counters_stay_zero :
    (reassembleSentences ["!VATDB,2,2,1,A,B,0,0,22,0"] 0 Reassembler.empty).1 = [] ∧
    (reassembleSentences ["!VATDB,2,2,1,A,B,0,0,22,0"] 1000000
        (reassembleSentences ["!VATDB,2,2,1,A,B,0,0,22,0"] 0 Reassembler.empty).2).1 = [] ∧
    (reassembleSentences ["!VATDB,2,2,1,A,B,0,0,22,0"] 1000000
        (reassembleSentences ["!VATDB,2,2,1,A,B,0,0,22,0"] 0 Reassembler.empty).2).2.groups
      = [] ∧
    getSplitReconstructCounts
        (reassembleSentences ["!VATDB,2,2,1,A,B,0,0,22,0"] 1000000
          (reassembleSentences ["!VATDB,2,2,1,A,B,0,0,22,0"] 0 Reassembler.empty).2).2
      = (0, 0) := by
  decide

/-- C6 counterexample: the single line `!AATDB,1!BBTDB,2` contains two
sentence-start markers whose tokens have the fixed length and the fixed
`TDB` suffix, but `_extract_target_tdb_sentences` returns only one entry
(the first matching marker ends the scan of the line), so the extraction
does not return one entry for every matching occurrence. -/
theorem extract_not_one_entry_per_matching_marker :
    matchingMarkerCount "!AATDB,1!BBTDB,2".data = 2 ∧
    (extractTargetTdbSentences "!AATDB,1!BBTDB,2").length = 1 := by
  decide

/-- C7: the next-minute-boundary computation
(`resolve_measurement_start_boundary_utc`) returns its input unchanged
when the second and microsecond components are zero and otherwise
returns the start of the following minute, and the wait-seconds
computation (`calculate_wait_seconds_until_boundary`) returns
`max 0 (target - now)` and is never negative. -/
theorem minute_boundary_and_wait_semantics :
    (∀ t : Int, dtSecond t = 0 ∧ dtMicrosecond t = 0 →
      resolveMeasurementStartBoundaryUtc t = t) ∧
    (∀ t : Int, ¬(dtSecond t = 0 ∧ dtMicrosecond t = 0) →
      resolveMeasurementStartBoundaryUtc t = 60000000 * (t / 60000000) + 60000000) ∧
    (∀ target now : Int, calculateWaitUntilBoundary target now = max 0 (target - now)) ∧
    (∀ target now : Int, 0 ≤ calculateWaitUntilBoundary target now) := by
  refine ⟨fun t h => ?_, fun t h => ?_, fun target now => ?_, fun target now => ?_⟩
  · unfold resolveMeasurementStartBoundaryUtc
    rw [if_pos h]
  · unfold resolveMeasurementStartBoundaryUtc
    rw [if_neg h]
    unfold dtMinuteFloor
    omega
  · unfold calculateWaitUntilBoundary
    rcases le_or_lt 0 (target - now) with hle | hlt
    · rw [if_neg (by omega), max_eq_right hle]
    · rw [if_pos hlt, max_eq_left (by omega)]
  · unfold calculateWaitUntilBoundary
    dsimp only
    split <;> omega

/-- Witness for C7 at an exact boundary (`120000000` microseconds) and a
non-boundary instant (`123456789`), plus concrete wait computations. -/
theorem minute_boundary_and_wait_semantics_witness :
    resolveMeasurementStartBoundaryUtc 120000000 = 120000000 ∧
    resolveMeasurementStartBoundaryUtc 123456789 = 180000000 ∧
    calculateWaitUntilBoundary 180000000 123456789 = max 0 (180000000 - 123456789) ∧
    0 ≤ calculateWaitUntilBoundary 0 123456789 :=
  ⟨minute_boundary_and_wait_semantics.1 120000000 (by decide),
   minute_boundary_and_wait_semantics.2.1 123456789 (by decide),
   minute_boundary_and_wait_semantics.2.2.1 180000000 123456789,
   minute_boundary_and_wait_semantics.2.2.2 0 123456789⟩

/-- C9: in the acknowledgement wait, every flag value 0 is skipped and
waiting continues; the first non-zero flag ends the wait and is
returned; and in the loop body the completed-send counter is incremented
exactly once when that flag equals 1, while any other non-zero flag
proceeds to the next send (the cycle still yields a continuation state)
without incrementing. -/
theorem send_trigger_and_counter_semantics :
    (∀ rest : List Int, waitForNextSendTrigger (0 :: rest) = waitForNextSendTrigger rest) ∧
    (∀ (f : Int) (rest : List Int), f ≠ 0 →
      waitForNextSendTrigger (f :: rest) = some (f, rest)) ∧
    (∀ (count : Nat) (flags rest : List Int),
      waitForNextSendTrigger flags = some (1, rest) →
      sendCycle count flags = some (count + 1, rest)) ∧
    (∀ (count : Nat) (flags rest : List Int) (f : Int),
      waitForNextSendTrigger flags = some (f, rest) → f ≠ 1 →
      sendCycle count flags = some (count, rest)) := by
  refine ⟨fun rest => ?_, fun f rest hf => ?_,
    fun count flags rest h => ?_, fun count flags rest f h hf => ?_⟩
  · simp [waitForNextSendTrigger]
  · simp [waitForNextSendTrigger, hf]
  · simp [sendCycle, h]
  · simp [sendCycle, h, hf]

/-- Witness for C9 on concrete flag queues. -/
theorem send_trigger_and_counter_semantics_witness :
    waitForNextSendTrigger [0, 0, 2] = waitForNextSendTrigger [0, 2] ∧
    waitForNextSendTrigger [2, 0] = some (2, [0]) ∧
    sendCycle 5 [0, 1] = some (6, []) ∧
    sendCycle 5 [0, 7] = some (5, []) :=
  ⟨send_trigger_and_counter_semantics.1 [0, 2],
   send_trigger_and_counter_semantics.2.1 2 [0] (by decide),
   send_trigger_and_counter_semantics.2.2.1 5 [0, 1] [] (by decide),
   send_trigger_and_counter_semantics.2.2.2 5 [0, 7] [] 7 (by decide) (by decide)⟩

/-- Every chunk produced by `encodeChar` has exactly 6 bits. -/
theorem encodeChar_ok_length {c : Char} {b : List Bool} (h : encodeChar c = .ok b) :
    b.length = 6 := by
  unfold encodeChar at h
  cases hv : aisCharToSixbit c <;> rw [hv] at h
  · exact absurd h (by simp)
  · cases h
    rfl

/-- A successful character encoding yields `6n` bits for `n` characters. -/
theorem encodePayloadChars_ok_length :
    ∀ (l : List Char) (chunks : List (List Bool)),
      encodePayloadChars l = .ok chunks → chunks.flatten.length = 6 * l.length := by
  intro l
  induction l with
  | nil =>
    intro chunks h
    cases h
    simp
  | cons c t ih =>
    intro chunks h
    unfold encodePayloadChars at h
    cases hc : encodeChar c <;> rw [hc] at h
    · exact absurd h (by simp)
    · cases ht : encodePayloadChars t <;> rw [ht] at h
      · exact absurd h (by simp)
      · cases h
        have := ih _ ht
        simp [List.length_append, this, encodeChar_ok_length hc]
        ring

/-- A failed character encoding always reports an undecodable character,
never the fill error. -/
theorem encodePayloadChars_error_badChar :
    ∀ (l : List Char) (e : PayloadBitsError),
      encodePayloadChars l = .error e → ∃ c, e = .badChar c := by
  intro l
  induction l with
  | nil =>
    intro e h
    exact absurd h (by simp [encodePayloadChars])
  | cons c t ih =>
    intro e h
    unfold encodePayloadChars at h
    cases hc : encodeChar c <;> rw [hc] at h
    · unfold encodeChar at hc
      cases hv : aisCharToSixbit c <;> rw [hv] at hc
      · cases hc
        cases h
        exact ⟨c, rfl⟩
      · exact absurd hc (by simp)
    · cases ht : encodePayloadChars t <;> rw [ht] at h
      · cases h
        exact ih _ ht
      · exact absurd h (by simp)

/-- C10: for a non-empty payload with `fill` in `[0, 5]` — the
postcondition of `_parse_tdb_sentence` — `_payload_to_bits` never fails
with the fill-exceeds-bit-length error: the encoding yields 6 bits per
character, hence at least 6 bits, always strictly more than `fill`. -/
theorem fill_error_unreachable_for_parsed_segments :
    ∀ (payload : String) (fill : Int), payload ≠ "" →
      TDB_FILL_MIN_VALUE ≤ fill → fill ≤ TDB_FILL_MAX_VALUE →
      (∀ chunks, encodePayloadChars payload.data = .ok chunks →
        chunks.flatten.length = 6 * payload.length) ∧
      payloadToBits payload fill ≠ Except.error PayloadBitsError.fillTooLarge := by
  intro payload fill hne h0 h5
  unfold TDB_FILL_MIN_VALUE at h0
  unfold TDB_FILL_MAX_VALUE at h5
  have hdata : payload.data ≠ [] := by
    intro hd
    apply hne
    cases payload
    simp only at hd
    rw [hd]
  have hlenpos : 1 ≤ payload.data.length := by
    have := List.length_pos.mpr hdata
    omega
  constructor
  · intro chunks h
    exact encodePayloadChars_ok_length _ _ h
  · unfold payloadToBits
    cases h : encodePayloadChars payload.data with
    | error e =>
      obtain ⟨c, rfl⟩ := encodePayloadChars_error_badChar _ _ h
      simp
    | ok chunks =>
      have hlen := encodePayloadChars_ok_length _ _ h
      dsimp only
      by_cases hf : fill = 0
      · rw [if_pos hf]
        simp
      · rw [if_neg hf, if_neg (by omega)]
        simp

/-- Witness for C10 at payload `"11"` and fill 5. -/
theorem fill_error_unreachable_for_parsed_segments_witness :
    (∀ chunks, encodePayloadChars "11".data = .ok chunks →
      chunks.flatten.length = 6 * "11".length) ∧
    payloadToBits "11" 5 ≠ Except.error PayloadBitsError.fillTooLarge :=
  fill_error_unreachable_for_parsed_segments "11" 5 (by decide) (by decide) (by decide)

/-- A character in either permitted range encodes to a 6-bit value that
decodes back to the same character. -/
theorem ais_char_encode_decode (c : Char)
    (h : (48 ≤ c.toNat ∧ c.toNat ≤ 87) ∨ (96 ≤ c.toNat ∧ c.toNat ≤ 119)) :
    ∃ v, aisCharToSixbit c = some v ∧ v < 64 ∧ sixbitToAisChar v = some c := by
  unfold aisCharToSixbit sixbitToAisChar
  rcases h with ⟨h1, h2⟩ | ⟨h1, h2⟩
  · refine ⟨c.toNat - 48, ?_, by omega, ?_⟩
    · rw [if_pos ⟨h1, h2⟩]
    · rw [if_neg (by omega), if_pos (by omega),
        show c.toNat - 48 + 48 = c.toNat by omega, Char.ofNat_toNat]
  · refine ⟨c.toNat - 56, ?_, by omega, ?_⟩
    · rw [if_neg (by omega), if_pos ⟨h1, h2⟩]
    · rw [if_neg (by omega), if_neg (by omega),
        show c.toNat - 56 + 56 = c.toNat by omega, Char.ofNat_toNat]

/-- Reading back the 6 bits of a value below 64 recovers the value. -/
theorem bitsToNat_natToBits6 : ∀ v < 64, bitsToNat (natToBits6 v) = v := by
  decide

/-- Chunking a bit string that starts with a whole 6-bit chunk peels that
chunk off. -/
theorem chunks6_append (b : List Bool) (hb : b.length = 6) (rest : List Bool) :
    chunks6 (b ++ rest) = b :: chunks6 rest := by
  match b, hb with
  | [b1, b2, b3, b4, b5, b6], _ => rfl

/-- Decoding the concatenated chunks of a valid character list recovers
the list. -/
theorem encode_then_decode :
    ∀ l : List Char,
      (∀ c ∈ l, (48 ≤ c.toNat ∧ c.toNat ≤ 87) ∨ (96 ≤ c.toNat ∧ c.toNat ≤ 119)) →
      ∃ chunks, encodePayloadChars l = .ok chunks ∧
        chunks.flatten.length = 6 * l.length ∧
        decodeChunks (chunks6 chunks.flatten) = some l := by
  intro l
  induction l with
  | nil => exact fun _ => ⟨[], rfl, rfl, rfl⟩
  | cons c t ih =>
    intro hall
    obtain ⟨v, hv, hv64, hdec⟩ := ais_char_encode_decode c (hall c (by simp))
    obtain ⟨chunks, h1, h2, h3⟩ := ih (fun x hx => hall x (by simp [hx]))
    refine ⟨natToBits6 v :: chunks, ?_, ?_, ?_⟩
    · unfold encodePayloadChars
      rw [show encodeChar c = .ok (natToBits6 v) by unfold encodeChar; rw [hv], h1]
    · simp only [List.flatten_cons, List.length_append, h2, List.length_cons]
      have : (natToBits6 v).length = 6 := rfl
      omega
    · rw [List.flatten_cons, chunks6_append (natToBits6 v) rfl]
      unfold decodeChunks
      rw [bitsToNat_natToBits6 v hv64, hdec, h3]

/-- C3: for every non-empty payload whose characters all lie in the two
permitted AIS 6-bit ranges (codes 48-87 and 96-119), converting to bits
with fill 0 and converting the bits back yields the original payload. -/
theorem sixbit_payload_roundtrip :
    ∀ s : String, s ≠ "" →
      (∀ c ∈ s.data, (48 ≤ c.toNat ∧ c.toNat ≤ 87) ∨ (96 ≤ c.toNat ∧ c.toNat ≤ 119)) →
      ∃ bits, payloadToBits s 0 = .ok bits ∧ bitsToPayload bits = some s := by
  intro s _hne hall
  obtain ⟨chunks, h1, h2, h3⟩ := encode_then_decode s.data hall
  refine ⟨chunks.flatten, ?_, ?_⟩
  · unfold payloadToBits
    rw [h1]
    simp
  · unfold bitsToPayload
    rw [if_neg (by omega), h3]

/-- Witness for C3 at the payload `"1Ww"` (codes 49, 87 and 119). -/
theorem sixbit_payload_roundtrip_witness :
    ∃ bits, payloadToBits "1Ww" 0 = .ok bits ∧ bitsToPayload bits = some "1Ww" :=
  sixbit_payload_roundtrip "1Ww" (by decide) (by decide)

/-- Popping one key leaves lookups of other keys unchanged. -/
theorem lookupGroup_markGroupFailure_ne {k k' : GroupKey} (st : Reassembler)
    (h : k ≠ k') : lookupGroup k (markGroupFailure k' st) = lookupGroup k st := by
  unfold lookupGroup markGroupFailure
  dsimp only
  induction st.groups with
  | nil => rfl
  | cons p t ih =>
    by_cases hp : p.1 = k'
    · rw [List.filter_cons_of_neg (by simp [hp]),
        List.find?_cons_of_neg _ (by simp [hp]; exact fun hk => h hk.symm)]
      exact ih
    · rw [List.filter_cons_of_pos (by simp [hp])]
      by_cases hk : p.1 = k
      · rw [List.find?_cons_of_pos _ (by simp [hk]), List.find?_cons_of_pos _ (by simp [hk])]
      · rw [List.find?_cons_of_neg _ (by simp [hk]), List.find?_cons_of_neg _ (by simp [hk])]
        exact ih

/-- Popping a key removes it from the map. -/
theorem lookupGroup_markGroupFailure_self (k : GroupKey) (st : Reassembler) :
    lookupGroup k (markGroupFailure k st) = none := by
  unfold lookupGroup markGroupFailure
  dsimp only
  rw [List.find?_eq_none.mpr]
  · rfl
  · intro p hp
    simp only [List.mem_filter] at hp
    simpa using hp.2

/-- An absent key stays absent under any sequence of pops. -/
theorem lookupGroup_fold_failure_none (keys : List GroupKey) :
    ∀ st : Reassembler, lookupGroup k st = none →
      lookupGroup k (keys.foldl (fun s k' => markGroupFailure k' s) st) = none := by
  induction keys with
  | nil => exact fun st h => h
  | cons k0 rest ih =>
    intro st h
    refine ih _ ?_
    by_cases hk : k = k0
    · rw [hk]
      exact lookupGroup_markGroupFailure_self k0 st
    · rw [lookupGroup_markGroupFailure_ne st hk]
      exact h

/-- A key among the popped keys is absent afterwards. -/
theorem lookupGroup_fold_failure_mem (keys : List GroupKey) :
    ∀ st : Reassembler, k ∈ keys →
      lookupGroup k (keys.foldl (fun s k' => markGroupFailure k' s) st) = none := by
  induction keys with
  | nil => exact fun st h => absurd h (List.not_mem_nil k)
  | cons k0 rest ih =>
    intro st hmem
    by_cases hk : k = k0
    · refine lookupGroup_fold_failure_none rest _ ?_
      rw [hk]
      exact lookupGroup_markGroupFailure_self k0 st
    · exact ih _ (by rcases List.mem_cons.mp hmem with h | h; exact absurd h hk; exact h)

/-- A key not among the popped keys keeps its binding. -/
theorem lookupGroup_fold_failure_not_mem (keys : List GroupKey) :
    ∀ st : Reassembler, k ∉ keys →
      lookupGroup k (keys.foldl (fun s k' => markGroupFailure k' s) st) = lookupGroup k st := by
  induction keys with
  | nil => exact fun st _ => rfl
  | cons k0 rest ih =>
    intro st hmem
    rw [List.foldl_cons, ih _ (fun h => hmem (List.mem_cons_of_mem k0 h)),
      lookupGroup_markGroupFailure_ne st
        (fun h => hmem (by rw [h]; exact List.mem_cons_self k0 rest))]

/-- Two entries of a map whose keys are nodup and which share a key are
the same entry. -/
theorem entry_eq_of_nodup_keys {p q : GroupKey × Group} :
    ∀ groups : List (GroupKey × Group), (groups.map Prod.fst).Nodup →
      p ∈ groups → q ∈ groups → p.1 = q.1 → p = q := by
  intro groups
  induction groups with
  | nil => exact fun _ hp => absurd hp (List.not_mem_nil p)
  | cons r t ih =>
    intro hnd hp hq hpq
    rw [List.map_cons, List.nodup_cons] at hnd
    rcases List.mem_cons.mp hp with hp1 | hp1 <;> rcases List.mem_cons.mp hq with hq1 | hq1
    · rw [hp1, hq1]
    · have hmm : q.1 ∈ List.map Prod.fst t := List.mem_map_of_mem Prod.fst hq1
      rw [← hpq, hp1] at hmm
      exact absurd hmm hnd.1
    · have hmm : p.1 ∈ List.map Prod.fst t := List.mem_map_of_mem Prod.fst hp1
      rw [hpq, hq1] at hmm
      exact absurd hmm hnd.1
    · exact ih hnd.2 hp1 hq1 hpq

/-- C5: `reassemble_sentences` runs the expiry pass on the batch receive
time before any sentence is registered; the pass removes every open group
whose last reception lies strictly more than 30 seconds before the
receive time, and leaves every group whose last reception is strictly
later than the receive time (clock anomaly) untouched. -/
theorem expiry_pass_semantics :
    ∀ (st : Reassembler) (t : Int),
      (∀ sentences, reassembleSentences sentences t st
        = processSentences sentences t (expireGroups t st)) ∧
      (∀ (k : GroupKey) (g : Group) (l : Int), lookupGroup k st = some g →
        g.last = some l → t - l > TDB_GROUP_EXPIRY_US →
        lookupGroup k (expireGroups t st) = none) ∧
      (∀ (k : GroupKey) (g : Group) (l : Int), (st.groups.map Prod.fst).Nodup →
        lookupGroup k st = some g → g.last = some l → t < l →
        lookupGroup k (expireGroups t st) = some g) := by
  intro st t
  refine ⟨fun _ => rfl, fun k g l hlook hlast hexp => ?_, fun k g l hnd hlook hlast hanom => ?_⟩
  · rw [show TDB_GROUP_EXPIRY_US = 30000000 from rfl] at hexp
    unfold expireGroups
    refine lookupGroup_fold_failure_mem _ st ?_
    unfold lookupGroup at hlook
    rw [Option.map_eq_some'] at hlook
    obtain ⟨p, hfind, hsnd⟩ := hlook
    have hmem := List.mem_of_find?_eq_some hfind
    have hkey : p.1 = k := by simpa using List.find?_some hfind
    have hshould : shouldExpire t p.2 = true := by
      rw [hsnd]
      unfold shouldExpire
      rw [hlast]
      dsimp only
      rw [if_neg (by omega)]
      rw [show TDB_GROUP_EXPIRY_US = 30000000 from rfl]
      exact decide_eq_true (by omega)
    exact hkey ▸ List.mem_map_of_mem Prod.fst (List.mem_filter.mpr ⟨hmem, hshould⟩)
  · unfold expireGroups
    rw [lookupGroup_fold_failure_not_mem _ st ?_]
    · exact hlook
    · intro hmemk
      rw [List.mem_map] at hmemk
      obtain ⟨q, hqmem, hqkey⟩ := hmemk
      rw [List.mem_filter] at hqmem
      unfold lookupGroup at hlook
      rw [Option.map_eq_some'] at hlook
      obtain ⟨p, hfind, hsnd⟩ := hlook
      have hpk : p.1 = k := by simpa using List.find?_some hfind
      have hq_eq_p : q = p :=
        entry_eq_of_nodup_keys st.groups hnd hqmem.1 (List.mem_of_find?_eq_some hfind)
          (by rw [hqkey, hpk])
      have hcontra : shouldExpire t g = true := by
        rw [← hsnd, ← hq_eq_p]
        exact hqmem.2
      unfold shouldExpire at hcontra
      rw [hlast] at hcontra
      dsimp only at hcontra
      rw [if_pos hanom] at hcontra
      exact absurd hcontra (by simp)

/-- Witness for C5: a map with one expired group and one group whose last
reception lies in the future of the batch time. -/
theorem expiry_pass_semantics_witness :
    lookupGroup (2, "A", "B")
      (expireGroups 40000000
        ⟨[((2, "A", "B"), ⟨2, "A", "B", [], some 0⟩),
          ((3, "C", "D"), ⟨3, "C", "D", [], some 50000000⟩)], 0, 0⟩) = none ∧
    lookupGroup (3, "C", "D")
      (expireGroups 40000000
        ⟨[((2, "A", "B"), ⟨2, "A", "B", [], some 0⟩),
          ((3, "C", "D"), ⟨3, "C", "D", [], some 50000000⟩)], 0, 0⟩)
      = some ⟨3, "C", "D", [], some 50000000⟩ :=
  ⟨(expiry_pass_semantics
      ⟨[((2, "A", "B"), ⟨2, "A", "B", [], some 0⟩),
        ((3, "C", "D"), ⟨3, "C", "D", [], some 50000000⟩)], 0, 0⟩ 40000000).2.1
      (2, "A", "B") ⟨2, "A", "B", [], some 0⟩ 0 (by decide) (by decide) (by decide),
   (expiry_pass_semantics
      ⟨[((2, "A", "B"), ⟨2, "A", "B", [], some 0⟩),
        ((3, "C", "D"), ⟨3, "C", "D", [], some 50000000⟩)], 0, 0⟩ 40000000).2.2
      (3, "C", "D") ⟨3, "C", "D", [], some 50000000⟩ 50000000 (by decide) (by decide)
      (by decide) (by decide)⟩

/-- Shifting a scan position over a leading character. -/
theorem isMatchAt_cons_succ (c : Char) (rest : List Char) (i : Nat) :
    isMatchAt (c :: rest) (i + 1) = isMatchAt rest i := rfl

/-- Scan result at the head position of a line. -/
theorem isMatchAt_cons_zero (c : Char) (rest : List Char) :
    isMatchAt (c :: rest) 0
      = (c == '!' &&
          match findCharIdx rest ',' with
          | none => false
          | some j => isTdbSentenceToken (rest.take j)) := rfl

/-- A list without the character has no occurrence in any of its drops. -/
theorem findCharIdx_none_drop {c : Char} :
    ∀ l : List Char, findCharIdx l c = none → ∀ k, findCharIdx (l.drop k) c = none := by
  intro l
  induction l with
  | nil => intro _ k; rw [List.drop_nil]; rfl
  | cons x rest ih =>
    intro h k
    unfold findCharIdx at h
    by_cases hx : x = c
    · rw [if_pos hx] at h
      cases h
    · rw [if_neg hx] at h
      have hrest : findCharIdx rest c = none := by
        cases hr : findCharIdx rest c
        · rfl
        · rw [hr] at h
          simp at h
      cases k with
      | zero =>
        rw [List.drop_zero]
        show (if x = c then some 0 else (findCharIdx rest c).map (· + 1)) = none
        rw [if_neg hx, hrest]
        rfl
      | succ k' => exact ih hrest k'

/-- A position whose tail holds no comma can never match. -/
theorem isMatchAt_false_of_no_comma {l : List Char} {i : Nat}
    (h : findCharIdx (l.drop (i + 1)) ',' = none) : isMatchAt l i = false := by
  unfold isMatchAt
  cases hg : l.get? i
  · rfl
  · dsimp only
    rw [h]
    simp

/-- Dropping a whitespace prefix of a list holding a non-whitespace
element never empties it. -/
theorem dropWhile_ws_ne_nil {l : List Char} {x : Char} (hx : x ∈ l)
    (hpx : Char.isWhitespace x = false) : l.dropWhile Char.isWhitespace ≠ [] := by
  induction l with
  | nil => cases hx
  | cons a t ih =>
    rw [List.dropWhile_cons]
    split
    · rename_i ha
      apply ih
      rcases List.mem_cons.mp hx with h | h
      · rw [h] at hpx
        rw [hpx] at ha
        cases ha
      · exact h
    · simp

/-- Stripping a line that starts at a marker leaves it non-empty. -/
theorem pyStrip_bang_ne_nil (t : List Char) : pyStrip ('!' :: t) ≠ [] := by
  unfold pyStrip
  rw [List.dropWhile_cons, if_neg (by decide)]
  intro h
  rw [List.reverse_eq_nil_iff] at h
  exact dropWhile_ws_ne_nil (List.mem_reverse.mpr (List.mem_cons_self '!' t)) (by decide) h

/-- One step of the least matching position of a line. -/
theorem firstMatchIdx_cons (c : Char) (rest : List Char) :
    firstMatchIdx (c :: rest)
      = if isMatchAt (c :: rest) 0 then some 0 else (firstMatchIdx rest).map (· + 1) := by
  unfold firstMatchIdx
  rw [show (c :: rest).length = rest.length + 1 from rfl, List.range_succ_eq_map]
  by_cases h0 : isMatchAt (c :: rest) 0
  · rw [List.find?_cons_of_pos _ h0, if_pos h0]
  · rw [List.find?_cons_of_neg _ h0, if_neg h0, List.find?_map]
    have hcomp : isMatchAt (c :: rest) ∘ Nat.succ = isMatchAt rest :=
      funext fun i => isMatchAt_cons_succ c rest i
    rw [hcomp]

/-- Unfolding of the line scan at a marker head. -/
theorem extractLine_cons_bang (rest : List Char) :
    extractLineSentences ('!' :: rest)
      = match findCharIdx rest ',' with
        | none => []
        | some j =>
          if isTdbSentenceToken (rest.take j) then
            (if (pyStrip ('!' :: rest)).isEmpty then [] else [pyStrip ('!' :: rest)])
          else extractLineSentences rest := rfl

/-- Unfolding of the line scan at a non-marker head. -/
theorem extractLine_cons_ne (c : Char) (rest : List Char) (hc : c ≠ '!') :
    extractLineSentences (c :: rest) = extractLineSentences rest := by
  conv_lhs => unfold extractLineSentences
  rw [if_neg hc]

/-- The line scan of `_extract_target_tdb_sentences` yields exactly the
stripped suffix from the first matching marker position, when one
exists. -/
theorem extractLine_eq_firstMatch :
    ∀ l : List Char,
      extractLineSentences l
        = match firstMatchIdx l with
          | some i => [pyStrip (l.drop i)]
          | none => [] := by
  intro l
  induction l with
  | nil => rfl
  | cons c rest ih =>
    rw [firstMatchIdx_cons]
    by_cases hc : c = '!'
    · subst hc
      rw [extractLine_cons_bang]
      cases hcm : findCharIdx rest ',' with
      | none =>
        have h0 : isMatchAt ('!' :: rest) 0 = false := by
          rw [isMatchAt_cons_zero, hcm]
          exact rfl
        have hnone : firstMatchIdx rest = none := by
          unfold firstMatchIdx
          rw [List.find?_eq_none]
          intro i _
          rw [isMatchAt_false_of_no_comma (findCharIdx_none_drop rest hcm (i + 1))]
          simp
        rw [h0, hnone]
        simp
      | some j =>
        dsimp only
        by_cases htk : isTdbSentenceToken (rest.take j) = true
        · have h0 : isMatchAt ('!' :: rest) 0 = true := by
            rw [isMatchAt_cons_zero, hcm]
            dsimp only
            rw [htk]
            rfl
          rw [if_pos htk,
            if_neg (by rw [List.isEmpty_iff]; exact pyStrip_bang_ne_nil rest), h0]
          simp
        · have h0 : isMatchAt ('!' :: rest) 0 = false := by
            rw [isMatchAt_cons_zero, hcm]
            dsimp only
            rw [Bool.not_eq_true] at htk
            rw [htk]
            rfl
          rw [if_neg htk, ih, h0]
          cases hfr : firstMatchIdx rest <;> simp
    · have h0 : isMatchAt (c :: rest) 0 = false := by
        rw [isMatchAt_cons_zero]
        have hbeq : (c == '!') = false := by
          rw [Bool.eq_false_iff]
          intro hb
          exact hc (by simpa using hb)
        rw [hbeq]
        rfl
      rw [extractLine_cons_ne c rest hc, ih, h0]
      cases hfr : firstMatchIdx rest <;> simp

/-- C6 amended: `_extract_target_tdb_sentences` scans every
newline-delimited line and every marker within a line until a token
matches, and returns, per line, at most one entry: the stripped rest of
the line from the first matching marker (markers with non-matching
tokens before it are skipped; later matching markers of the same line
produce no further entries). -/
theorem extract_first_matching_marker_per_line :
    ∀ text : String,
      extractTargetTdbSentences text
        = ((pySplitLines text.data []).flatMap fun l =>
            match firstMatchIdx l with
            | some i => [String.mk (pyStrip (l.drop i))]
            | none => []) := by
  intro text
  have hline : ∀ l : List Char,
      (extractLineSentences l).map String.mk
        = match firstMatchIdx l with
          | some i => [String.mk (pyStrip (l.drop i))]
          | none => [] := by
    intro l
    rw [extractLine_eq_firstMatch]
    cases firstMatchIdx l <;> rfl
  unfold extractTargetTdbSentences
  generalize pySplitLines text.data [] = lines
  induction lines with
  | nil => rfl
  | cons a t ih =>
    rw [List.flatMap_cons, List.flatMap_cons, List.map_append, ih, hline a]

/-- C8: `_parse_tdb_sentence` rejects a line exactly when one of the
enumerated conditions holds — too few fields in the checksum-stripped
body, a non-integer total/index/seq/fill, `total < 1`, `index` outside
`[1, total]`, `fill` outside `[0, 5]`, or an empty payload field — and
otherwise yields the segment carrying exactly the parsed field values. -/
theorem parse_failure_and_success_semantics :
    ∀ s : String,
      (parseTdbSentence s = none ↔ tdbParseFailsSpec s) ∧
      (∀ seg, parseTdbSentence s = some seg → segMatchesParsedFields s seg) := by
  intro s
  unfold parseTdbSentence tdbParseFailsSpec segMatchesParsedFields
  dsimp only
  by_cases hlen : (bodyFields s).length < TDB_MIN_FIELD_COUNT
  · rw [if_pos hlen]
    exact ⟨⟨fun _ => Or.inl hlen, fun _ => rfl⟩, fun seg h => by cases h⟩
  · rw [if_neg hlen]
    cases h1 : pyParseInt (fieldAt (bodyFields s) 1) with
    | none =>
      exact ⟨⟨fun _ => Or.inr (Or.inl rfl), fun _ => rfl⟩, fun seg h => by cases h⟩
    | some total =>
      cases h2 : pyParseInt (fieldAt (bodyFields s) 2) with
      | none =>
        exact ⟨⟨fun _ => Or.inr (Or.inr (Or.inl rfl)), fun _ => rfl⟩, fun seg h => by cases h⟩
      | some index =>
        cases h3 : pyParseInt (fieldAt (bodyFields s) 3) with
        | none =>
          exact ⟨⟨fun _ => Or.inr (Or.inr (Or.inr (Or.inl rfl))), fun _ => rfl⟩,
            fun seg h => by cases h⟩
        | some _sq =>
          cases h9 : pyParseInt (fieldAt (bodyFields s) 9) with
          | none =>
            exact ⟨⟨fun _ => Or.inr (Or.inr (Or.inr (Or.inr (Or.inl rfl)))), fun _ => rfl⟩,
              fun seg h => by cases h⟩
          | some fill =>
            dsimp only
            by_cases ht : total < 1
            · rw [if_pos ht]
              exact ⟨⟨fun _ =>
                  Or.inr (Or.inr (Or.inr (Or.inr (Or.inr (Or.inl ⟨total, rfl, ht⟩))))),
                fun _ => rfl⟩, fun seg h => by cases h⟩
            · rw [if_neg ht]
              by_cases hi : index < 1 ∨ index > total
              · rw [if_pos hi]
                exact ⟨⟨fun _ =>
                    Or.inr (Or.inr (Or.inr (Or.inr (Or.inr (Or.inr
                      (Or.inl ⟨total, index, rfl, rfl, hi⟩)))))),
                  fun _ => rfl⟩, fun seg h => by cases h⟩
              · rw [if_neg hi]
                by_cases hf : fill < TDB_FILL_MIN_VALUE ∨ fill > TDB_FILL_MAX_VALUE
                · rw [if_pos hf]
                  exact ⟨⟨fun _ =>
                      Or.inr (Or.inr (Or.inr (Or.inr (Or.inr (Or.inr (Or.inr
                        (Or.inl ⟨fill, rfl, hf⟩))))))),
                    fun _ => rfl⟩, fun seg h => by cases h⟩
                · rw [if_neg hf]
                  by_cases hp : String.mk (pyStrip (fieldAt (bodyFields s) 8)) = ""
                  · rw [if_pos hp]
                    have hp' : pyStrip (fieldAt (bodyFields s) 8) = [] := by
                      have := congrArg String.data hp
                      simpa using this
                    exact ⟨⟨fun _ =>
                        Or.inr (Or.inr (Or.inr (Or.inr (Or.inr (Or.inr (Or.inr
                          (Or.inr hp'))))))),
                      fun _ => rfl⟩, fun seg h => by cases h⟩
                  · rw [if_neg hp]
                    refine ⟨⟨fun h => absurd h (by simp), fun hspec => ?_⟩, fun seg h => ?_⟩
                    · rcases hspec with h | h | h | h | h | ⟨t', ht', hlt⟩ |
                        ⟨t', i', ht', hi', hrange⟩ | ⟨f', hf', hrange⟩ | h
                      · exact absurd h hlen
                      · cases h
                      · cases h
                      · cases h
                      · cases h
                      · cases ht'
                        exact absurd hlt ht
                      · cases ht'
                        cases hi'
                        exact absurd hrange hi
                      · cases hf'
                        exact absurd hrange hf
                      · exact absurd (by rw [h]) hp
                    · cases h
                      exact ⟨rfl, rfl, rfl, rfl, rfl, rfl⟩

/-- Witness for C8: a fragment with `index = 0` hits the enumerated
failure conditions, and a well-formed fragment parses to exactly its
field values. -/
theorem parse_failure_and_success_semantics_witness :
    tdbParseFailsSpec "!VATDB,2,0,1,A,B,0,0,11,0" ∧
    segMatchesParsedFields "!VATDB,2,1,1,A,B,0,0,11,0" ⟨2, 1, "A", "B", "11", 0⟩ :=
  ⟨(parse_failure_and_success_semantics "!VATDB,2,0,1,A,B,0,0,11,0").1.mp (by decide),
   (parse_failure_and_success_semantics "!VATDB,2,1,1,A,B,0,0,11,0").2 _ (by decide)⟩

end Vdes
